import Mathlib

/-!
The libraries of obelisk-platform: a shallow embedding of
`libs/feature-flagging`, `libs/store` and `libs/user-management` (Go) and
theorems about them.  The definitions come first, package by package, then
the theorems.

How Go is embedded:

* A Go function with effects is a function from the world it runs in to an
  `Outcome`: either it returns a value and leaves a world behind, or it
  panics with a message and leaves a world behind.  `Go W α` is the type of
  such computations; it is a monad, and the embedded functions are written in
  `do` blocks that follow the Go statements one by one.
* A Go value of type `map[string]bool` is a reference: either `nil` or the
  address of a table that lives in the heap.  Two variables holding the same
  address share the table.  `MapRef` is such a reference, `MapObj` is a table
  (a finite map is represented by its lookup function), `Heap` maps addresses
  to tables.
* `*StaticProvider` is modelled by the struct value: its single field `flags`
  is assigned once, in the constructor, and never again, so all state that can
  change is the table in the heap that `flags` refers to.
* The interface `Provider` is a record with the one method `IsEnabled`; an
  implementation may read and write its world and may panic.
* Go's `any` result of `Select` is a type parameter.
-/

namespace FeatureFlag

/-! ## Outcomes and the `Go` monad -/

/-- The result of running a Go function: a normal return with the returned
value, or a panic with its message; both carry the world left behind. -/
inductive Outcome (W α : Type) where
  | ok (val : α) (world : W)
  | panicked (msg : String) (world : W)

/-- The world an outcome leaves behind. -/
def Outcome.world {W α : Type} : Outcome W α → W
  | .ok _ w => w
  | .panicked _ w => w

/-- The returned value, when the function returned. -/
def Outcome.val? {W α : Type} : Outcome W α → Option α
  | .ok a _ => some a
  | .panicked _ _ => none

/-- Whether the function returned normally. -/
def Outcome.returned {W α : Type} : Outcome W α → Bool
  | .ok _ _ => true
  | .panicked _ _ => false

/-- Apply a function to the returned value; a panic is left as it is. -/
def Outcome.mapVal {W α β : Type} (f : α → β) : Outcome W α → Outcome W β
  | .ok a w => .ok (f a) w
  | .panicked msg w => .panicked msg w

/-- A Go computation over a world `W` returning an `α`. -/
def Go (W α : Type) : Type := W → Outcome W α

/-- The computation that returns `a` and touches nothing. -/
def Go.ret {W α : Type} (a : α) : Go W α := fun w => .ok a w

/-- Sequencing of statements: a panic in the first part skips the rest. -/
def Go.seq {W α β : Type} (x : Go W α) (f : α → Go W β) : Go W β := fun w =>
  match x w with
  | .ok a w1 => f a w1
  | .panicked msg w1 => .panicked msg w1

/-- Go's `panic(msg)`. -/
def Go.raise {W α : Type} (msg : String) : Go W α := fun w => .panicked msg w

instance (W : Type) : Monad (Go W) where
  pure := Go.ret
  bind := Go.seq

/-! ## Maps and the heap -/

/-- The table behind a non-nil `map[string]bool`: the value stored under each
key, `none` for a key that is not in the map. -/
abbrev MapObj := String → Option Bool

/-- The table of `make(map[string]bool)`. -/
def MapObj.empty : MapObj := fun _ => none

/-- The table after storing `v` under `k`. -/
def MapObj.insert (t : MapObj) (k : String) (v : Bool) : MapObj :=
  fun k1 => if k1 = k then some v else t k1

/-- A value of type `map[string]bool`: `none` is the nil map, `some a` refers
to the table at address `a`. -/
abbrev MapRef := Option Nat

/-- The heap: the table at each address, and the next address to hand out. -/
structure Heap where
  maps : Nat → MapObj
  next : Nat

/-- A heap on which nothing has been allocated. -/
def Heap.init : Heap := { maps := fun _ => MapObj.empty, next := 0 }

/-- The heap with the table at address `a` replaced. -/
def Heap.store (h : Heap) (a : Nat) (t : MapObj) : Heap :=
  { h with maps := fun i => if i = a then t else h.maps i }

/-- The entry under `k` of the map `m` in heap `h`; a nil map has no entries. -/
def Heap.entry (h : Heap) (m : MapRef) (k : String) : Option Bool :=
  match m with
  | none => none
  | some a => h.maps a k

/-- Go's `make(map[string]bool)`: a fresh, empty, non-nil map. -/
def makeMap : Go Heap MapRef := fun h =>
  .ok (some h.next) { maps := fun i => if i = h.next then MapObj.empty else h.maps i,
                      next := h.next + 1 }

/-- Go's `v, ok := m[k]`: the zero value and `false` when `k` is not in the
map or the map is nil; reading never panics and changes nothing. -/
def mapIndex (m : MapRef) (k : String) : Go Heap (Bool × Bool) := fun h =>
  match h.entry m k with
  | some v => .ok (v, true) h
  | none => .ok (false, false) h

/-- Go's `m[k] = v`: panics on a nil map, otherwise stores into the table. -/
def mapAssign (m : MapRef) (k : String) (v : Bool) : Go Heap Unit := fun h =>
  match m with
  | none => .panicked "assignment to entry in nil map" h
  | some a => .ok () (h.store a ((h.maps a).insert k v))

/-- The assignments `m[k] = v` for the listed entries, in order. -/
def assignAll (m : MapRef) : List (String × Bool) → Go Heap Unit
  | [] => pure ()
  | kv :: rest => do
    mapAssign m kv.1 kv.2
    assignAll m rest

/-- A map literal `map[string]bool` with the listed entries: a fresh map into
which the entries are stored in order. -/
def mapLit (kvs : List (String × Bool)) : Go Heap MapRef := do
  let m ← makeMap
  assignAll m kvs
  pure m

/-! ## static.go -/

/-- The struct of static.go: `flags map[string]bool`. -/
structure StaticProvider where
  flags : MapRef

/-- The constructor of static.go: a nil argument is replaced by a fresh empty
map, any other map is adopted as it is (by reference). -/
def NewStaticProvider (flags : MapRef) : Go Heap StaticProvider := do
  let flags ← if flags = none then makeMap else pure flags
  pure { flags := flags }

/-- The method `IsEnabled` of static.go. -/
def StaticProvider.IsEnabled (s : StaticProvider) (flagName : String) : Go Heap Bool := do
  let (enabled, «exists») ← mapIndex s.flags flagName
  if !«exists» then
    pure false
  else
    pure enabled

/-- The method `Set` of static.go. -/
def StaticProvider.Set (s : StaticProvider) (flagName : String) (enabled : Bool) :
    Go Heap Unit :=
  mapAssign s.flags flagName enabled

/-! ## provider.go and manager.go -/

/-- The interface of provider.go: one method, which runs in a world `W`. -/
structure Provider (W : Type) where
  IsEnabled : String → Go W Bool

/-- A `*StaticProvider` used as a `Provider`. -/
def StaticProvider.toProvider (s : StaticProvider) : Provider Heap :=
  { IsEnabled := s.IsEnabled }

/-- The struct of manager.go. -/
structure Manager (W : Type) where
  provider : Provider W

/-- The constructor `New` of manager.go. -/
def New {W : Type} (provider : Provider W) : Manager W :=
  { provider := provider }

/-- The method `IsEnabled` of manager.go. -/
def Manager.IsEnabled {W : Type} (m : Manager W) (flagName : String) : Go W Bool :=
  m.provider.IsEnabled flagName

/-- The method `IsDisabled` of manager.go. -/
def Manager.IsDisabled {W : Type} (m : Manager W) (flagName : String) : Go W Bool := do
  let b ← m.IsEnabled flagName
  pure (!b)

/-- The method `Select` of manager.go. -/
def Manager.Select {W α : Type} (m : Manager W) (flagName : String)
    (enabled fallback : Go W α) : Go W α := do
  if (← m.IsEnabled flagName) then
    enabled
  else
    fallback

/-- The method `When` of manager.go. -/
def Manager.When {W : Type} (m : Manager W) (flagName : String)
    (enabled fallback : Go W Unit) : Go W Unit := do
  if (← m.IsEnabled flagName) then
    enabled
  else
    fallback

/-! ## Test harnesses

The spec's testable properties are phrased over small client programs; these
are the programs. -/

/-- The world of a test that counts calls: the world `W` in which the provider
and the bodies of the two callables run, and one call counter per callable. -/
structure Counted (W : Type) where
  base : W
  c1 : Nat
  c2 : Nat

/-- A computation over `W` run inside the counting world; the counters are
local variables of the test and out of its reach. -/
def Counted.lift {W α : Type} (x : Go W α) : Go (Counted W) α := fun cw =>
  match x cw.base with
  | .ok a w => .ok a { cw with base := w }
  | .panicked msg w => .panicked msg { cw with base := w }

/-- A provider over `W` used inside the counting world. -/
def Counted.provider {W : Type} (p : Provider W) : Provider (Counted W) :=
  { IsEnabled := fun n => Counted.lift (p.IsEnabled n) }

/-- The statement `c1++`. -/
def Counted.tick1 {W : Type} : Go (Counted W) Unit := fun cw =>
  .ok () { cw with c1 := cw.c1 + 1 }

/-- The statement `c2++`. -/
def Counted.tick2 {W : Type} : Go (Counted W) Unit := fun cw =>
  .ok () { cw with c2 := cw.c2 + 1 }

/-- The first callable of the test: it increments the first counter and then
runs its body. -/
def Counted.first {W α : Type} (body : Go W α) : Go (Counted W) α := do
  Counted.tick1
  Counted.lift body

/-- The second callable of the test: it increments the second counter and
then runs its body. -/
def Counted.second {W α : Type} (body : Go W α) : Go (Counted W) α := do
  Counted.tick2
  Counted.lift body

/-- The counting test of `Select`: the manager is built over `p`, the first
factory counts in `c1`, the second in `c2`. -/
def selectTest {W α : Type} (p : Provider W) (n : String) (body1 body2 : Go W α) :
    Go (Counted W) α :=
  (New (Counted.provider p)).Select n (Counted.first body1) (Counted.second body2)

/-- The counting test of `When`: the manager is built over `p`, the first
action counts in `c1`, the second in `c2`. -/
def whenTest {W : Type} (p : Provider W) (n : String) (body1 body2 : Go W Unit) :
    Go (Counted W) Unit :=
  (New (Counted.provider p)).When n (Counted.first body1) (Counted.second body2)

/-- One evaluation of a flag on a static source `s`: `s.IsEnabled(n)`
directly, or `New(s).IsEnabled(n)`, or `New(s).IsDisabled(n)`. -/
inductive Query where
  | direct (n : String)
  | viaEnabled (n : String)
  | viaDisabled (n : String)

/-- Run one evaluation. -/
def Query.run (s : StaticProvider) : Query → Go Heap Bool
  | .direct n => s.IsEnabled n
  | .viaEnabled n => (New s.toProvider).IsEnabled n
  | .viaDisabled n => (New s.toProvider).IsDisabled n

/-- Whether the evaluation asks whether `k` is enabled. -/
def Query.asksEnabled (k : String) : Query → Bool
  | .direct n => n == k
  | .viaEnabled n => n == k
  | .viaDisabled _ => false

/-- The answer to an evaluation as read off the heap. -/
def Query.answer (s : StaticProvider) (h : Heap) : Query → Bool
  | .direct n => (h.entry s.flags n).getD false
  | .viaEnabled n => (h.entry s.flags n).getD false
  | .viaDisabled n => !(h.entry s.flags n).getD false

/-- Run the evaluations one after the other, with no `Set` in between, and
collect the answers. -/
def runQueries (s : StaticProvider) : List Query → Go Heap (List Bool)
  | [] => pure []
  | q :: qs => do
    let b ← q.run s
    let bs ← runQueries s qs
    pure (b :: bs)

/-- The seed of the spec's concrete scenario. -/
def seed : List (String × Bool) :=
  [("new-algorithm", true), ("beta-feature", false)]

/-- The spec's first scenario: a source seeded with `seed` is asked about `n`. -/
def seededIsEnabled (n : String) : Go Heap Bool := do
  let m ← mapLit seed
  let s ← NewStaticProvider m
  s.IsEnabled n

/-- The spec's second scenario: a manager over a source seeded with `seed`
selects on "beta-feature" between the factories returning "A" and "B", the
flag is set to true on the source, and the manager selects again. -/
def flipScenario : Go Heap (String × String) := do
  let m ← mapLit seed
  let s ← NewStaticProvider m
  let e := New s.toProvider
  let r1 ← e.Select "beta-feature" (pure "A") (pure "B")
  s.Set "beta-feature" true
  let r2 ← e.Select "beta-feature" (pure "A") (pure "B")
  pure (r1, r2)

/-- A source whose map is the table at address 0. -/
def demoSource : StaticProvider := { flags := some 0 }

/-- A heap whose table at address 0 holds beta-feature, set to true. -/
def demoHeap : Heap := Heap.init.store 0 (MapObj.empty.insert "beta-feature" true)

/-- A counting world over `demoHeap` with both counters at zero. -/
def demoCounted : Counted Heap := { base := demoHeap, c1 := 0, c2 := 0 }

/-- A caller that keeps the map it passed to the constructor: the map literal
`kvs` is given to `NewStaticProvider`, the source is asked about `n`, the
caller writes `m[k] = v` on its own variable, and the source is asked about
`n` again.  Returns the two answers. -/
def callerWriteScenario (kvs : List (String × Bool)) (n k : String) (v : Bool) :
    Go Heap (Bool × Bool) := do
  let m ← mapLit kvs
  let s ← NewStaticProvider m
  let before ← s.IsEnabled n
  mapAssign m k v
  let after ← s.IsEnabled n
  pure (before, after)

/-- A factory or action that fails: `panic("boom")`. -/
def boom {W α : Type} : Go W α := Go.raise "boom"

end FeatureFlag

/-! ## libs/store

`database/sql` is a library the stores call; what the stores can observe of it
is modelled here.  A `*sql.DB` is the address of a pool object in the world,
or nil.  Whether opening, pinging and closing succeed is decided by the driver
and the environment: `SqlLib` holds these decisions as functions of an
environment state.  The `context.Context` argument of `Connect` only reaches
`PingContext`, whose result is such a decision. -/

namespace Store

/-- A Go `error` value that is not nil: a plain error, or one made by
`fmt.Errorf` with the verb `%w`, which keeps the error it wraps. -/
inductive GoError where
  | plain (msg : String)
  | wrapping (msg : String) (inner : GoError)

/-- The method `Error()`. -/
def GoError.Error : GoError → String
  | .plain msg => msg
  | .wrapping msg _ => msg

/-- The call `fmt.Errorf(pre + "%w", err)`: the message is `pre` followed by
the message of `err`, and the result wraps `err`. -/
def Errorf_w (pre : String) (err : GoError) : GoError :=
  .wrapping (pre ++ err.Error) err

/-- The struct `Config` of store.go. -/
structure Config where
  MaxOpenConns : Int
  MaxIdleConns : Int
  ConnMaxLifetime : Int

/-- The state of a `sql.DB` pool object of `database/sql`: how it was opened,
its pool limits, and whether `Close` has been called on it.  The limits are
the library's fields: `maxOpen`, where 0 means no limit; `maxIdleCount`, where
0 means the default and a negative number means no idle connections;
`maxLifetime`, where 0 means connections are reused forever. -/
structure DBState where
  driverName : String
  dataSourceName : String
  maxOpen : Int
  maxIdleCount : Int
  maxLifetime : Int
  closed : Bool

/-- The constant `defaultMaxIdleConns` of `database/sql`. -/
def defaultMaxIdleConns : Int := 2

/-- The idle limit in force (`maxIdleConnsLocked` of `database/sql`). -/
def DBState.maxIdleConnsLocked (d : DBState) : Int :=
  if d.maxIdleCount = 0 then defaultMaxIdleConns
  else if d.maxIdleCount < 0 then 0
  else d.maxIdleCount

/-- The method `SetMaxIdleConns(n)` of `database/sql` on the pool state: the
idle limit becomes `n`, or none when `n` is not positive, and is then lowered
to the open limit if that is positive and smaller. -/
def DBState.SetMaxIdleConns (d : DBState) (n : Int) : DBState :=
  let d1 := { d with maxIdleCount := if n > 0 then n else -1 }
  if d1.maxOpen > 0 ∧ d1.maxIdleConnsLocked > d1.maxOpen then
    { d1 with maxIdleCount := d1.maxOpen }
  else d1

/-- The method `SetMaxOpenConns(n)` of `database/sql` on the pool state: the
open limit becomes `n`, or 0 when `n` is negative, and an idle limit above a
positive open limit is lowered with `SetMaxIdleConns(n)`. -/
def DBState.SetMaxOpenConns (d : DBState) (n : Int) : DBState :=
  let d1 := { d with maxOpen := if n < 0 then 0 else n }
  if d1.maxOpen > 0 ∧ d1.maxIdleConnsLocked > d1.maxOpen then
    d1.SetMaxIdleConns n
  else d1

/-- The method `SetConnMaxLifetime(t)` of `database/sql` on the pool state: a
negative duration counts as 0. -/
def DBState.SetConnMaxLifetime (d : DBState) (t : Int) : DBState :=
  { d with maxLifetime := if t < 0 then 0 else t }

/-- The field `MaxOpenConnections` of `db.Stats()`: the open limit. -/
def DBState.MaxOpenConnections (d : DBState) : Int := d.maxOpen

/-- The pool object `sql.Open` returns: all limits at their zero value, not
closed. -/
def DBState.opened (driverName dsn : String) : DBState :=
  { driverName := driverName, dataSourceName := dsn, maxOpen := 0, maxIdleCount := 0,
    maxLifetime := 0, closed := false }

/-- A value of type `*sql.DB`: `none` is nil, `some a` the pool object at
address `a`. -/
abbrev DBRef := Option Nat

/-- The world the stores run in: the state of the environment (files, servers),
the pool objects by address, and the next address to hand out. -/
structure World (E : Type) where
  env : E
  dbs : Nat → DBState
  next : Nat

/-- The decisions of driver and environment: the error, if any, of
`sql.Open(driverName, dsn)`, of `PingContext` on a pool, and of closing a
pool that is open, each with the environment it leaves. -/
structure SqlLib (E : Type) where
  openErr : String → String → E → Option GoError × E
  pingErr : DBState → E → Option GoError × E
  closeErr : DBState → E → Option GoError × E

/-- The world with the pool object at address `a` replaced. -/
def World.setDB {E : Type} (w : World E) (a : Nat) (d : DBState) : World E :=
  { w with dbs := fun i => if i = a then d else w.dbs i }

/-- The call `sql.Open(driverName, dsn)`: an error, or a new pool object with
all limits at their zero value and not closed; a returned `*sql.DB` is never nil when the
error is nil. -/
def sqlOpen {E : Type} (lib : SqlLib E) (driverName dsn : String) (w : World E) :
    Except GoError Nat × World E :=
  match lib.openErr driverName dsn w.env with
  | (some err, e) => (.error err, { w with env := e })
  | (none, e) =>
    (.ok w.next,
     { env := e,
       dbs := fun i => if i = w.next then DBState.opened driverName dsn else w.dbs i,
       next := w.next + 1 })

/-- The call `db.SetMaxOpenConns(n)`. -/
def sqlSetMaxOpenConns {E : Type} (a : Nat) (n : Int) (w : World E) : World E :=
  w.setDB a ((w.dbs a).SetMaxOpenConns n)

/-- The call `db.SetMaxIdleConns(n)`. -/
def sqlSetMaxIdleConns {E : Type} (a : Nat) (n : Int) (w : World E) : World E :=
  w.setDB a ((w.dbs a).SetMaxIdleConns n)

/-- The call `db.SetConnMaxLifetime(d)`. -/
def sqlSetConnMaxLifetime {E : Type} (a : Nat) (d : Int) (w : World E) : World E :=
  w.setDB a ((w.dbs a).SetConnMaxLifetime d)

/-- The call `db.PingContext(ctx)`. -/
def sqlPing {E : Type} (lib : SqlLib E) (a : Nat) (w : World E) :
    Option GoError × World E :=
  match lib.pingErr (w.dbs a) w.env with
  | (err, e) => (err, { w with env := e })

/-- The call `db.Close()`: on a pool that is already closed it returns nil and
does nothing; otherwise the pool is marked closed and the result is the
driver's. -/
def sqlClose {E : Type} (lib : SqlLib E) (a : Nat) (w : World E) :
    Option GoError × World E :=
  if (w.dbs a).closed then
    (none, w)
  else
    match lib.closeErr (w.dbs a) w.env with
    | (err, e) => (err, { w with env := e }.setDB a { w.dbs a with closed := true })

/-! ### sqlite.go -/

/-- The struct of sqlite.go. -/
structure SQLiteStore where
  db : DBRef
  filepath : String
  config : Config

/-- The constructor `New` of sqlite.go. -/
def Sqlite.New (filepath : String) (config : Config) : SQLiteStore :=
  { db := none, filepath := filepath, config := config }

/-- The method `Connect` of sqlite.go: the returned error (`none` is nil), the
store after the call, and the world after the call. -/
def SQLiteStore.Connect {E : Type} (lib : SqlLib E) (s : SQLiteStore) (w : World E) :
    Option GoError × SQLiteStore × World E :=
  match sqlOpen lib "sqlite3" s.filepath w with
  | (.error err, w1) => (some (Errorf_w "failed to open sqlite database: " err), s, w1)
  | (.ok db, w1) =>
    let w2 := if s.config.MaxOpenConns > 0 then sqlSetMaxOpenConns db s.config.MaxOpenConns w1
              else w1
    let w3 := if s.config.MaxIdleConns > 0 then sqlSetMaxIdleConns db s.config.MaxIdleConns w2
              else w2
    let w4 := if s.config.ConnMaxLifetime > 0 then
                sqlSetConnMaxLifetime db s.config.ConnMaxLifetime w3
              else w3
    match sqlPing lib db w4 with
    | (some err, w5) =>
      (some (Errorf_w "failed to ping sqlite database: " err), s, (sqlClose lib db w5).2)
    | (none, w5) => (none, { s with db := some db }, w5)

/-- The method `Close` of sqlite.go; the store itself is not changed. -/
def SQLiteStore.Close {E : Type} (lib : SqlLib E) (s : SQLiteStore) (w : World E) :
    Option GoError × World E :=
  match s.db with
  | some db => sqlClose lib db w
  | none => (none, w)

/-- The method `DB` of sqlite.go. -/
def SQLiteStore.DB (s : SQLiteStore) : DBRef := s.db

/-! ### postgres.go -/

/-- The struct `Config` of postgres.go. -/
structure Postgres.Config where
  Host : String
  Port : Int
  User : String
  Password : String
  DBName : String
  SSLMode : String

/-- The struct of postgres.go. -/
structure PostgresStore where
  db : DBRef
  dsn : String
  config : Config

/-- The constructor `New` of postgres.go; the data source name is the result
of the `fmt.Sprintf` call. -/
def Postgres.New (cfg : Store.Postgres.Config) (storeConfig : Store.Config) :
    PostgresStore :=
  { db := none,
    dsn := "host=" ++ cfg.Host ++ " port=" ++ toString cfg.Port ++ " user=" ++ cfg.User
      ++ " password=" ++ cfg.Password ++ " dbname=" ++ cfg.DBName
      ++ " sslmode=" ++ cfg.SSLMode,
    config := storeConfig }

/-- The method `Connect` of postgres.go: the returned error (`none` is nil),
the store after the call, and the world after the call. -/
def PostgresStore.Connect {E : Type} (lib : SqlLib E) (p : PostgresStore) (w : World E) :
    Option GoError × PostgresStore × World E :=
  match sqlOpen lib "postgres" p.dsn w with
  | (.error err, w1) => (some (Errorf_w "failed to open postgres database: " err), p, w1)
  | (.ok db, w1) =>
    let w2 := if p.config.MaxOpenConns > 0 then sqlSetMaxOpenConns db p.config.MaxOpenConns w1
              else w1
    let w3 := if p.config.MaxIdleConns > 0 then sqlSetMaxIdleConns db p.config.MaxIdleConns w2
              else w2
    let w4 := if p.config.ConnMaxLifetime > 0 then
                sqlSetConnMaxLifetime db p.config.ConnMaxLifetime w3
              else w3
    match sqlPing lib db w4 with
    | (some err, w5) =>
      (some (Errorf_w "failed to ping postgres database: " err), p, (sqlClose lib db w5).2)
    | (none, w5) => (none, { p with db := some db }, w5)

/-- The method `Close` of postgres.go; the store itself is not changed. -/
def PostgresStore.Close {E : Type} (lib : SqlLib E) (p : PostgresStore) (w : World E) :
    Option GoError × World E :=
  match p.db with
  | some db => sqlClose lib db w
  | none => (none, w)

/-- The method `DB` of postgres.go. -/
def PostgresStore.DB (p : PostgresStore) : DBRef := p.db

/-! ### Concrete inputs -/

/-- A driver and environment in which every call succeeds. -/
def okLib : SqlLib Unit :=
  { openErr := fun _ _ e => (none, e),
    pingErr := fun _ e => (none, e),
    closeErr := fun _ e => (none, e) }

/-- A world with no pool object yet. -/
def World.init : World Unit :=
  { env := (),
    dbs := fun _ =>
      { driverName := "", dataSourceName := "", maxOpen := 0, maxIdleCount := 0,
        maxLifetime := 0, closed := false },
    next := 0 }

/-- The pool settings of the tests: 20 open, 10 idle, 30 minutes in nanoseconds. -/
def testConfig : Config :=
  { MaxOpenConns := 20, MaxIdleConns := 10, ConnMaxLifetime := 1800000000000 }

/-- Pool settings that ask for more idle than open connections: 5 open, 10
idle, a lifetime of 1 nanosecond. -/
def cappedConfig : Config :=
  { MaxOpenConns := 5, MaxIdleConns := 10, ConnMaxLifetime := 1 }

/-- The connection details of the postgres tests. -/
def testPostgresConfig : Postgres.Config :=
  { Host := "localhost", Port := 5432, User := "obelisk", Password := "obelisk123",
    DBName := "obelisk_dev", SSLMode := "disable" }

end Store

/-! ## libs/user-management -/

namespace UserMgmt

/-- The struct `Config` of config.go. -/
structure Config where
  TableName : String
  PasswordMinLength : Int

/-- The function `DefaultConfig` of config.go. -/
def DefaultConfig : Config :=
  { TableName := "users", PasswordMinLength := 8 }

/-- The struct of repository.go; `S` is the type behind the interface
`store.Store`. -/
structure repository (S : Type) where
  store : S
  tableName : String

/-- The constructor `NewRepository` of repository.go. -/
def NewRepository {S : Type} (st : S) (config : Config) : repository S :=
  let tableName := config.TableName
  let tableName := if tableName = "" then "users" else tableName
  { store := st, tableName := tableName }

/-- The struct of service.go; `R`, `A` and `P` are the types behind the
interfaces `Repository`, `AuthProvider` and `PasswordHasher`. -/
structure service (R A P : Type) where
  repo : R
  authProvider : A
  passwordHasher : P
  config : Config

/-- The constructor `NewService` of service.go. -/
def NewService {R A P : Type} (repo : R) (authProvider : A) (passwordHasher : P)
    (config : Config) : service R A P :=
  { repo := repo, authProvider := authProvider, passwordHasher := passwordHasher,
    config := config }

end UserMgmt

namespace FeatureFlag

/-! ## Basic facts about the monad and the heap -/

@[simp]
theorem Go.pure_run {W α : Type} (a : α) (w : W) :
    (pure a : Go W α) w = .ok a w := rfl

@[simp]
theorem Go.bind_run {W α β : Type} (x : Go W α) (f : α → Go W β) (w : W) :
    (x >>= f) w = match x w with
      | .ok a w1 => f a w1
      | .panicked msg w1 => .panicked msg w1 := rfl

theorem Go.bind_ok {W α β : Type} {x : Go W α} {f : α → Go W β} {w w1 : W} {a : α}
    (hx : x w = .ok a w1) : (x >>= f) w = f a w1 := by
  simp [hx]

theorem StaticProvider.IsEnabled_run (s : StaticProvider) (n : String) (h : Heap) :
    s.IsEnabled n h = .ok ((h.entry s.flags n).getD false) h := by
  unfold StaticProvider.IsEnabled mapIndex
  cases hE : h.entry s.flags n <;> simp [hE]

theorem Manager.IsEnabled_New {W : Type} (p : Provider W) (n : String) :
    (New p).IsEnabled n = p.IsEnabled n := rfl

theorem Manager.IsEnabled_static (s : StaticProvider) (n : String) (h : Heap) :
    (New s.toProvider).IsEnabled n h = .ok ((h.entry s.flags n).getD false) h :=
  StaticProvider.IsEnabled_run s n h

theorem Manager.Select_run {W α : Type} (p : Provider W) (n : String) (f g : Go W α)
    (w w1 : W) (b : Bool) (hp : p.IsEnabled n w = .ok b w1) :
    (New p).Select n f g w = if b then f w1 else g w1 := by
  unfold Manager.Select
  rw [Go.bind_ok (show (New p).IsEnabled n w = .ok b w1 from hp)]
  cases b <;> simp

theorem Manager.When_run {W : Type} (p : Provider W) (n : String) (f g : Go W Unit)
    (w w1 : W) (b : Bool) (hp : p.IsEnabled n w = .ok b w1) :
    (New p).When n f g w = if b then f w1 else g w1 := by
  unfold Manager.When
  rw [Go.bind_ok (show (New p).IsEnabled n w = .ok b w1 from hp)]
  cases b <;> simp

theorem NewStaticProvider_nil (h : Heap) :
    NewStaticProvider none h
      = .ok { flags := some h.next }
          { maps := fun i => if i = h.next then MapObj.empty else h.maps i,
            next := h.next + 1 } := by
  simp [NewStaticProvider, makeMap]

theorem NewStaticProvider_some (a : Nat) (h : Heap) :
    NewStaticProvider (some a) h = .ok { flags := some a } h := by
  simp [NewStaticProvider]

theorem StaticProvider.Set_run (a : Nat) (n : String) (v : Bool) (h : Heap) :
    StaticProvider.Set { flags := some a } n v h
      = .ok () (h.store a ((h.maps a).insert n v)) := rfl

theorem Heap.entry_store_insert (h : Heap) (a : Nat) (n : String) (v : Bool) :
    (h.store a ((h.maps a).insert n v)).entry (some a) n = some v := by
  simp [Heap.entry, Heap.store, MapObj.insert]

theorem Counted.provider_run {W : Type} (p : Provider W) (n : String) (cw : Counted W)
    (b : Bool) (w1 : W) (hp : p.IsEnabled n cw.base = .ok b w1) :
    (Counted.provider p).IsEnabled n cw = .ok b { cw with base := w1 } := by
  simp [Counted.provider, Counted.lift, hp]

theorem Counted.first_world {W α : Type} (body : Go W α) (cw : Counted W) :
    (Counted.first body cw).world.c1 = cw.c1 + 1
    ∧ (Counted.first body cw).world.c2 = cw.c2 := by
  simp only [Counted.first, Counted.tick1, Counted.lift, Go.bind_run]
  cases body cw.base <;> simp [Outcome.world]

theorem Counted.second_world {W α : Type} (body : Go W α) (cw : Counted W) :
    (Counted.second body cw).world.c1 = cw.c1
    ∧ (Counted.second body cw).world.c2 = cw.c2 + 1 := by
  simp only [Counted.second, Counted.tick2, Counted.lift, Go.bind_run]
  cases body cw.base <;> simp [Outcome.world]

theorem Query.run_eq (s : StaticProvider) (h : Heap) (q : Query) :
    q.run s h = .ok (q.answer s h) h := by
  cases q with
  | direct n => exact StaticProvider.IsEnabled_run s n h
  | viaEnabled n => exact StaticProvider.IsEnabled_run s n h
  | viaDisabled n =>
    show (New s.toProvider).IsDisabled n h = _
    unfold Manager.IsDisabled
    rw [Go.bind_ok (Manager.IsEnabled_static s n h)]
    rfl

theorem runQueries_eq (s : StaticProvider) (h : Heap) (qs : List Query) :
    runQueries s qs h = .ok (qs.map (Query.answer s h)) h := by
  induction qs with
  | nil => rfl
  | cons q qs ih =>
    unfold runQueries
    rw [Go.bind_ok (Query.run_eq s h q), Go.bind_ok ih]
    rfl

theorem Query.answer_of_asksEnabled (s : StaticProvider) (h : Heap) (k : String)
    (q : Query) (hq : q.asksEnabled k = true) :
    q.answer s h = (h.entry s.flags k).getD false := by
  cases q with
  | direct n =>
    have hn : n = k := by simpa [Query.asksEnabled] using hq
    simp [Query.answer, hn]
  | viaEnabled n =>
    have hn : n = k := by simpa [Query.asksEnabled] using hq
    simp [Query.answer, hn]
  | viaDisabled n => simp [Query.asksEnabled] at hq

/-! ## The static source -/

/-- C1: a flag name that is not a key of the mapping of a static source is
reported as not enabled, and the lookup returns normally; this holds for every
source and every state of the heap, so for every initial mapping and after
every sequence of `Set` calls. -/
theorem StaticProvider.IsEnabled_missing (s : StaticProvider) (h : Heap) (n : String)
    (hn : h.entry s.flags n = none) :
    s.IsEnabled n h = .ok false h := by
  rw [StaticProvider.IsEnabled_run, hn]
  rfl

theorem StaticProvider.IsEnabled_missing_witness :
    (Heap.init.store 0 (MapObj.empty.insert "beta-feature" true)).entry
        (StaticProvider.mk (some 0)).flags "unknown-flag" = none
    ∧ (StaticProvider.mk (some 0)).IsEnabled "unknown-flag"
        (Heap.init.store 0 (MapObj.empty.insert "beta-feature" true))
      = .ok false (Heap.init.store 0 (MapObj.empty.insert "beta-feature" true)) :=
  ⟨by decide, StaticProvider.IsEnabled_missing _ _ _ (by decide)⟩

/-- C2: a source built by `NewStaticProvider(m)` reports, for every key `n` of
`m`, the value `m[n]`; seeded with new-algorithm true and beta-feature false
it reports new-algorithm enabled and beta-feature not enabled. -/
theorem NewStaticProvider_IsEnabled_key (h : Heap) (m : MapRef) (n : String) (b : Bool)
    (hn : h.entry m n = some b) :
    (NewStaticProvider m >>= fun s => s.IsEnabled n) h = .ok b h
    ∧ (∀ h0 : Heap, (seededIsEnabled "new-algorithm" h0).val? = some true)
    ∧ (∀ h0 : Heap, (seededIsEnabled "beta-feature" h0).val? = some false) := by
  refine ⟨?_, ?_, ?_⟩
  · cases m with
    | none => simp [Heap.entry] at hn
    | some a =>
      rw [Go.bind_ok (NewStaticProvider_some a h), StaticProvider.IsEnabled_run, hn]
      rfl
  · intro h0
    simp [seededIsEnabled, mapLit, seed, assignAll, makeMap, mapAssign, NewStaticProvider,
      StaticProvider.IsEnabled_run, Heap.entry, Heap.store, MapObj.insert, Outcome.val?]
  · intro h0
    simp [seededIsEnabled, mapLit, seed, assignAll, makeMap, mapAssign, NewStaticProvider,
      StaticProvider.IsEnabled_run, Heap.entry, Heap.store, MapObj.insert, Outcome.val?]

theorem NewStaticProvider_IsEnabled_key_witness :
    (Heap.init.store 0 (MapObj.empty.insert "new-algorithm" true)).entry (some 0)
        "new-algorithm" = some true
    ∧ ((NewStaticProvider (some 0) >>= fun s => s.IsEnabled "new-algorithm")
          (Heap.init.store 0 (MapObj.empty.insert "new-algorithm" true))
        = .ok true (Heap.init.store 0 (MapObj.empty.insert "new-algorithm" true))
      ∧ (∀ h0 : Heap, (seededIsEnabled "new-algorithm" h0).val? = some true)
      ∧ (∀ h0 : Heap, (seededIsEnabled "beta-feature" h0).val? = some false)) :=
  ⟨by decide, NewStaticProvider_IsEnabled_key _ _ _ _ (by decide)⟩

/-- C4: on a source built by `NewStaticProvider` from any mapping, nil
included, and in any later state of the heap, `Set(n, v)` returns normally and
an `IsEnabled(n)` right after it returns `v`, whatever was stored under `n`
before. -/
theorem StaticProvider.Set_then_IsEnabled (h0 : Heap) (m : MapRef) :
    ∃ s h1, NewStaticProvider m h0 = .ok s h1
      ∧ ∀ (h : Heap) (n : String) (v : Bool),
          ∃ h2, s.Set n v h = .ok () h2
            ∧ (s.Set n v >>= fun _ => s.IsEnabled n) h = .ok v h2 := by
  cases m with
  | none =>
    refine ⟨_, _, NewStaticProvider_nil h0, ?_⟩
    intro h n v
    refine ⟨_, StaticProvider.Set_run _ n v h, ?_⟩
    rw [Go.bind_ok (StaticProvider.Set_run _ n v h), StaticProvider.IsEnabled_run,
      Heap.entry_store_insert]
    rfl
  | some a =>
    refine ⟨_, _, NewStaticProvider_some a h0, ?_⟩
    intro h n v
    refine ⟨_, StaticProvider.Set_run _ n v h, ?_⟩
    rw [Go.bind_ok (StaticProvider.Set_run _ n v h), StaticProvider.IsEnabled_run,
      Heap.entry_store_insert]
    rfl

/-- C8: `NewStaticProvider(nil)` returns a source whose map is not nil and has
no entries: `IsEnabled(n)` returns false for every `n` without panicking, and a
following `Set(n, v)` returns normally, after which `IsEnabled(n)` returns `v`. -/
theorem NewStaticProvider_nil_usable (h0 : Heap) :
    ∃ s h1, NewStaticProvider none h0 = .ok s h1
      ∧ s.flags ≠ none
      ∧ (∀ n, h1.entry s.flags n = none)
      ∧ (∀ n, s.IsEnabled n h1 = .ok false h1)
      ∧ ∀ (n : String) (v : Bool),
          ∃ h2, s.Set n v h1 = .ok () h2 ∧ s.IsEnabled n h2 = .ok v h2 := by
  refine ⟨_, _, NewStaticProvider_nil h0, by simp, ?_, ?_, ?_⟩
  · intro n
    simp [Heap.entry, MapObj.empty]
  · intro n
    rw [StaticProvider.IsEnabled_run]
    simp [Heap.entry, MapObj.empty]
  · intro n v
    refine ⟨_, StaticProvider.Set_run _ n v _, ?_⟩
    rw [StaticProvider.IsEnabled_run, Heap.entry_store_insert]
    rfl

/-! ## The manager -/

/-- C3: for every provider `p`, name `n` and world, `New(p).IsDisabled(n)` is
`New(p).IsEnabled(n)` with the returned boolean negated: same world left
behind, and a panic of the provider is passed on as it is. -/
theorem Manager.IsDisabled_eq_not_IsEnabled {W : Type} (p : Provider W) (n : String)
    (w : W) :
    (New p).IsDisabled n w = ((New p).IsEnabled n w).mapVal (fun b => !b) := by
  unfold Manager.IsDisabled
  rw [Go.bind_run]
  cases (New p).IsEnabled n w <;> rfl

/-- C5: when the provider answers `b` for `n`, `New(p).Select(n, f, g)` is the
run of `f` if `b` is true and the run of `g` otherwise, continued from the
world the provider left: the outcome of the chosen factory is the outcome of
`Select`, value included, untouched. -/
theorem Manager.Select_returns_chosen {W α : Type} (p : Provider W) (n : String)
    (f g : Go W α) (w w1 : W) (b : Bool) (hp : p.IsEnabled n w = .ok b w1) :
    (New p).Select n f g w = if b then f w1 else g w1 :=
  Manager.Select_run p n f g w w1 b hp

theorem Manager.Select_returns_chosen_witness :
    demoSource.toProvider.IsEnabled "beta-feature" demoHeap = .ok true demoHeap
    ∧ (New demoSource.toProvider).Select "beta-feature" (pure "A") (pure "B") demoHeap
      = if true then (pure "A" : Go Heap String) demoHeap
        else (pure "B" : Go Heap String) demoHeap :=
  ⟨StaticProvider.IsEnabled_run _ _ _,
   Manager.Select_returns_chosen _ _ _ _ _ _ _ (StaticProvider.IsEnabled_run _ _ _)⟩

/-- C6: in the counting test of `Select`, when the provider answers `b` for
`n`, after one call the first factory has been called once and the second not
at all if `b` is true, and the second once and the first not at all otherwise,
whatever the factories do besides counting. -/
theorem Manager.Select_calls_exactly_one {W α : Type} (p : Provider W) (n : String)
    (body1 body2 : Go W α) (cw : Counted W) (b : Bool) (w1 : W)
    (hp : p.IsEnabled n cw.base = .ok b w1) :
    (selectTest p n body1 body2 cw).world.c1 = cw.c1 + (if b then 1 else 0)
    ∧ (selectTest p n body1 body2 cw).world.c2 = cw.c2 + (if b then 0 else 1) := by
  unfold selectTest
  rw [Manager.Select_run _ n _ _ cw _ b (Counted.provider_run p n cw b w1 hp)]
  cases b
  · simpa using Counted.second_world body2 { cw with base := w1 }
  · simpa using Counted.first_world body1 { cw with base := w1 }

theorem Manager.Select_calls_exactly_one_witness :
    demoSource.toProvider.IsEnabled "beta-feature" demoCounted.base = .ok true demoHeap
    ∧ (selectTest demoSource.toProvider "beta-feature" (pure "A") (pure "B")
          demoCounted).world.c1 = demoCounted.c1 + (if true then 1 else 0)
    ∧ (selectTest demoSource.toProvider "beta-feature" (pure "A") (pure "B")
          demoCounted).world.c2 = demoCounted.c2 + (if true then 0 else 1) :=
  ⟨StaticProvider.IsEnabled_run _ _ _,
   Manager.Select_calls_exactly_one _ _ _ _ _ _ _ (StaticProvider.IsEnabled_run _ _ _)⟩

/-- C7: in the counting test of `When`, when the provider answers `b` for `n`,
after one call the first action has run once and the second not at all if `b`
is true, and the second once and the first not at all otherwise; so exactly
one of the two has run, once. -/
theorem Manager.When_runs_exactly_one {W : Type} (p : Provider W) (n : String)
    (body1 body2 : Go W Unit) (cw : Counted W) (b : Bool) (w1 : W)
    (hp : p.IsEnabled n cw.base = .ok b w1) :
    (whenTest p n body1 body2 cw).world.c1 = cw.c1 + (if b then 1 else 0)
    ∧ (whenTest p n body1 body2 cw).world.c2 = cw.c2 + (if b then 0 else 1)
    ∧ (whenTest p n body1 body2 cw).world.c1 + (whenTest p n body1 body2 cw).world.c2
        = cw.c1 + cw.c2 + 1 := by
  unfold whenTest
  rw [Manager.When_run _ n _ _ cw _ b (Counted.provider_run p n cw b w1 hp)]
  cases b
  · have h2 := Counted.second_world body2 { cw with base := w1 }
    simp only [Bool.false_eq_true, if_false] at *
    omega
  · have h1 := Counted.first_world body1 { cw with base := w1 }
    simp only [if_true] at *
    omega

theorem Manager.When_runs_exactly_one_witness :
    demoSource.toProvider.IsEnabled "unknown-flag" demoCounted.base = .ok false demoHeap
    ∧ (whenTest demoSource.toProvider "unknown-flag" (pure ()) (pure ())
          demoCounted).world.c1 = demoCounted.c1 + (if false then 1 else 0)
    ∧ (whenTest demoSource.toProvider "unknown-flag" (pure ()) (pure ())
          demoCounted).world.c2 = demoCounted.c2 + (if false then 0 else 1)
    ∧ (whenTest demoSource.toProvider "unknown-flag" (pure ()) (pure ())
          demoCounted).world.c1
        + (whenTest demoSource.toProvider "unknown-flag" (pure ()) (pure ())
            demoCounted).world.c2
        = demoCounted.c1 + demoCounted.c2 + 1 :=
  ⟨StaticProvider.IsEnabled_run _ _ _,
   Manager.When_runs_exactly_one _ _ _ _ _ _ _ (StaticProvider.IsEnabled_run _ _ _)⟩

/-- C9: a manager built over a static source asks the source on every call:
even after the manager has been asked about `n` once, a `Set(n, v)` on the
source makes the next `IsEnabled(n)` of the manager return `v` and the next
`Select(n, f, g)` run `f` if `v` is true and `g` otherwise; and in the spec's
scenario, with beta-feature seeded false, `Select` returns "B" before and "A"
after `Set("beta-feature", true)`. -/
theorem Manager.requeries_source (h0 : Heap) (m : MapRef) :
    (∃ s h1, NewStaticProvider m h0 = .ok s h1
      ∧ ∀ (h : Heap) (n : String) (v : Bool),
          ∃ h2,
            ((New s.toProvider).IsEnabled n >>= fun _ =>
              s.Set n v >>= fun _ => (New s.toProvider).IsEnabled n) h = .ok v h2
            ∧ ∀ (α : Type) (f g : Go Heap α),
                ((New s.toProvider).IsEnabled n >>= fun _ =>
                  s.Set n v >>= fun _ => (New s.toProvider).Select n f g) h
                  = if v then f h2 else g h2)
    ∧ (flipScenario h0).val? = some ("B", "A") := by
  have key : ∀ (a : Nat) (h : Heap) (n : String) (v : Bool),
      ∃ h2,
        ((New (StaticProvider.mk (some a)).toProvider).IsEnabled n >>= fun _ =>
          (StaticProvider.mk (some a)).Set n v >>= fun _ =>
            (New (StaticProvider.mk (some a)).toProvider).IsEnabled n) h = .ok v h2
        ∧ ∀ (α : Type) (f g : Go Heap α),
            ((New (StaticProvider.mk (some a)).toProvider).IsEnabled n >>= fun _ =>
              (StaticProvider.mk (some a)).Set n v >>= fun _ =>
                (New (StaticProvider.mk (some a)).toProvider).Select n f g) h
              = if v then f h2 else g h2 := by
    intro a h n v
    have hafter : (New (StaticProvider.mk (some a)).toProvider).IsEnabled n
        (h.store a ((h.maps a).insert n v))
        = .ok v (h.store a ((h.maps a).insert n v)) := by
      rw [Manager.IsEnabled_static, Heap.entry_store_insert]
      rfl
    refine ⟨h.store a ((h.maps a).insert n v), ?_, ?_⟩
    · rw [Go.bind_ok (Manager.IsEnabled_static _ n h),
        Go.bind_ok (StaticProvider.Set_run a n v h)]
      exact hafter
    · intro α f g
      rw [Go.bind_ok (Manager.IsEnabled_static _ n h),
        Go.bind_ok (StaticProvider.Set_run a n v h)]
      exact Manager.Select_run _ n f g _ _ v hafter
  refine ⟨?_, ?_⟩
  · cases m with
    | none => exact ⟨_, _, NewStaticProvider_nil h0, key _⟩
    | some a => exact ⟨_, _, NewStaticProvider_some a h0, key a⟩
  · simp [flipScenario, mapLit, seed, assignAll, makeMap, mapAssign, NewStaticProvider,
      Manager.Select, Manager.IsEnabled, New, StaticProvider.toProvider, StaticProvider.Set,
      StaticProvider.IsEnabled_run, Heap.entry, Heap.store, MapObj.insert, Outcome.val?]

/-- C10: evaluating flags on a static source, directly or through a manager's
`IsEnabled` or `IsDisabled`, returns normally and leaves the heap, and so the
mapping, exactly as it was; hence in any run of evaluations with no `Set` in
between, all the calls that ask whether `k` is enabled return the same value. -/
theorem evaluation_preserves_flags (s : StaticProvider) (h : Heap) (k : String) :
    (∀ q : Query, ∃ b, q.run s h = .ok b h)
    ∧ ∃ b, ∀ qs : List Query, ∃ bs,
        runQueries s qs h = .ok bs h
        ∧ bs.length = qs.length
        ∧ ∀ (i : Nat) (hi : i < qs.length),
            (qs.get ⟨i, hi⟩).asksEnabled k = true → bs[i]? = some b := by
  refine ⟨fun q => ⟨_, Query.run_eq s h q⟩, (h.entry s.flags k).getD false, ?_⟩
  intro qs
  refine ⟨_, runQueries_eq s h qs, by simp, ?_⟩
  intro i hi hq
  rw [List.getElem?_map, List.getElem?_eq_getElem hi]
  simp only [Option.map_some']
  congr 1
  exact Query.answer_of_asksEnabled s h k _ hq

/-! ## Failure, sharing and frame of the flag layer -/

theorem Heap.entry_store_insert_ne (h : Heap) (a : Nat) (n k : String) (v : Bool)
    (hk : k ≠ n) :
    (h.store a ((h.maps a).insert n v)).entry (some a) k = h.entry (some a) k := by
  simp [Heap.entry, Heap.store, MapObj.insert, hk]

/-- C11: when the provider answers `b` for `n` and the factory or action that
`b` selects panics, the call of `Select` or `When` panics with the same
message and leaves the world the failed callable left: nothing is caught,
wrapped or replaced, and the other callable is not run. -/
theorem Manager.chosen_failure_propagates {W α : Type} (p : Provider W) (n : String)
    (f g : Go W α) (a1 a2 : Go W Unit) (w w1 w2 : W) (b : Bool) (msg : String)
    (hp : p.IsEnabled n w = .ok b w1) :
    ((if b then f w1 else g w1) = .panicked msg w2
        → (New p).Select n f g w = .panicked msg w2)
    ∧ ((if b then a1 w1 else a2 w1) = .panicked msg w2
        → (New p).When n a1 a2 w = .panicked msg w2) := by
  refine ⟨fun hf => ?_, fun ha => ?_⟩
  · rw [Manager.Select_run p n f g w w1 b hp, hf]
  · rw [Manager.When_run p n a1 a2 w w1 b hp, ha]

theorem Manager.chosen_failure_propagates_witness :
    demoSource.toProvider.IsEnabled "beta-feature" demoHeap = .ok true demoHeap
    ∧ (New demoSource.toProvider).Select "beta-feature" (boom : Go Heap String) (pure "B")
        demoHeap = .panicked "boom" demoHeap
    ∧ (New demoSource.toProvider).When "beta-feature" boom (pure ()) demoHeap
        = .panicked "boom" demoHeap :=
  ⟨StaticProvider.IsEnabled_run _ _ _,
   (Manager.chosen_failure_propagates demoSource.toProvider "beta-feature"
      (boom : Go Heap String) (pure "B") boom (pure ()) demoHeap demoHeap demoHeap true "boom"
      (StaticProvider.IsEnabled_run _ _ _)).1 rfl,
   (Manager.chosen_failure_propagates demoSource.toProvider "beta-feature"
      (boom : Go Heap String) (pure "B") boom (pure ()) demoHeap demoHeap demoHeap true "boom"
      (StaticProvider.IsEnabled_run _ _ _)).2 rfl⟩

/-- C12, as the code has it: `NewStaticProvider(m)` with a non-nil `m` keeps
`m` itself, not a copy, so the source shares the table with the caller: after
a later write `m[k] = v` by the caller, in any state, the source answers `v`
for `k` and what it answered before for every other name. -/
theorem NewStaticProvider_shares_map (h : Heap) (a : Nat) :
    ∃ s, NewStaticProvider (some a) h = .ok s h
      ∧ s.flags = some a
      ∧ ∀ (h1 : Heap) (k n : String) (v : Bool),
          (mapAssign (some a) k v >>= fun _ => s.IsEnabled n) h1
            = .ok (if n = k then v else (h1.entry s.flags n).getD false)
                (h1.store a ((h1.maps a).insert k v)) := by
  refine ⟨_, NewStaticProvider_some a h, rfl, ?_⟩
  intro h1 k n v
  have hw : mapAssign (some a) k v h1 = .ok () (h1.store a ((h1.maps a).insert k v)) := rfl
  rw [Go.bind_ok hw, StaticProvider.IsEnabled_run]
  by_cases hn : n = k
  · subst hn
    rw [Heap.entry_store_insert]
    simp
  · rw [Heap.entry_store_insert_ne h1 a k n v hn]
    simp [hn]

/-- C12, as the claim has it, fails: with a source built from the literal that
maps beta-feature to false, the source answers false for beta-feature, and
after the caller writes true under beta-feature into its own map variable the
source answers true. -/
theorem caller_write_changes_source :
    (callerWriteScenario [("beta-feature", false)] "beta-feature" "beta-feature" true
        Heap.init).val? = some (false, true) := by
  simp [callerWriteScenario, mapLit, assignAll, makeMap, mapAssign, NewStaticProvider,
    StaticProvider.IsEnabled_run, Heap.entry, Heap.store, MapObj.insert, Outcome.val?,
    Heap.init]

/-- C18: on a source built by `NewStaticProvider`, in any state, `Set(n, v)`
leaves the entry of every other name `k` as it was (present or absent, same
value), so `IsEnabled(k)` returns after the call what it returned before. -/
theorem StaticProvider.Set_changes_one_key (h0 : Heap) (m : MapRef) (h : Heap)
    (n k : String) (v : Bool) (hk : k ≠ n) :
    ∃ s h1, NewStaticProvider m h0 = .ok s h1
      ∧ ∃ h2, s.Set n v h = .ok () h2
        ∧ h2.entry s.flags k = h.entry s.flags k
        ∧ (s.IsEnabled k h2).val? = (s.IsEnabled k h).val? := by
  have key : ∀ a : Nat, ∃ h2, (StaticProvider.mk (some a)).Set n v h = .ok () h2
      ∧ h2.entry (StaticProvider.mk (some a)).flags k
          = h.entry (StaticProvider.mk (some a)).flags k
      ∧ ((StaticProvider.mk (some a)).IsEnabled k h2).val?
          = ((StaticProvider.mk (some a)).IsEnabled k h).val? := by
    intro a
    refine ⟨_, StaticProvider.Set_run a n v h, Heap.entry_store_insert_ne h a n k v hk, ?_⟩
    rw [StaticProvider.IsEnabled_run, StaticProvider.IsEnabled_run]
    show some _ = some _
    congr 2
    exact Heap.entry_store_insert_ne h a n k v hk
  cases m with
  | none => exact ⟨_, _, NewStaticProvider_nil h0, key _⟩
  | some a => exact ⟨_, _, NewStaticProvider_some a h0, key a⟩

theorem StaticProvider.Set_changes_one_key_witness :
    "new-algorithm" ≠ "beta-feature"
    ∧ ∃ s h1, NewStaticProvider (some 0) demoHeap = .ok s h1
      ∧ ∃ h2, s.Set "beta-feature" false demoHeap = .ok () h2
        ∧ h2.entry s.flags "new-algorithm" = demoHeap.entry s.flags "new-algorithm"
        ∧ (s.IsEnabled "new-algorithm" h2).val?
            = (s.IsEnabled "new-algorithm" demoHeap).val? :=
  ⟨by decide, StaticProvider.Set_changes_one_key _ _ _ _ _ _ (by decide)⟩

end FeatureFlag

namespace Store

/-! ## The stores -/

theorem DBState.SetMaxIdleConns_maxOpen (d : DBState) (n : Int) :
    (d.SetMaxIdleConns n).maxOpen = d.maxOpen := by
  unfold DBState.SetMaxIdleConns
  simp only []
  split_ifs <;> rfl

theorem DBState.SetMaxOpenConns_maxOpen (d : DBState) (k : Int) (hk : 0 < k) :
    (d.SetMaxOpenConns k).maxOpen = k := by
  unfold DBState.SetMaxOpenConns
  simp only []
  have : ¬ k < 0 := by omega
  split_ifs <;> simp [DBState.SetMaxIdleConns_maxOpen, this]

theorem DBState.SetMaxIdleConns_limit (d : DBState) (i : Int) (hi : 0 < i) :
    (d.SetMaxIdleConns i).maxIdleConnsLocked
      = if 0 < d.maxOpen ∧ d.maxOpen < i then d.maxOpen else i := by
  unfold DBState.SetMaxIdleConns DBState.maxIdleConnsLocked defaultMaxIdleConns
  simp only [gt_iff_lt, hi, if_true]
  split_ifs <;> first | rfl | omega | (simp_all; try omega)

theorem pool_after_settings (d0 : DBState) (hO : d0.maxOpen = 0) (k i t : Int) :
    (0 < k →
      (if t > 0 then
          (if i > 0 then (if k > 0 then d0.SetMaxOpenConns k else d0).SetMaxIdleConns i
            else (if k > 0 then d0.SetMaxOpenConns k else d0)).SetConnMaxLifetime t
        else (if i > 0 then (if k > 0 then d0.SetMaxOpenConns k else d0).SetMaxIdleConns i
            else (if k > 0 then d0.SetMaxOpenConns k else d0))).maxOpen = k)
    ∧ (0 < i →
      (if t > 0 then
          (if i > 0 then (if k > 0 then d0.SetMaxOpenConns k else d0).SetMaxIdleConns i
            else (if k > 0 then d0.SetMaxOpenConns k else d0)).SetConnMaxLifetime t
        else (if i > 0 then (if k > 0 then d0.SetMaxOpenConns k else d0).SetMaxIdleConns i
            else (if k > 0 then d0.SetMaxOpenConns k else d0))).maxIdleConnsLocked
        = if 0 < k ∧ k < i then k else i)
    ∧ (0 < t →
      (if t > 0 then
          (if i > 0 then (if k > 0 then d0.SetMaxOpenConns k else d0).SetMaxIdleConns i
            else (if k > 0 then d0.SetMaxOpenConns k else d0)).SetConnMaxLifetime t
        else (if i > 0 then (if k > 0 then d0.SetMaxOpenConns k else d0).SetMaxIdleConns i
            else (if k > 0 then d0.SetMaxOpenConns k else d0))).maxLifetime = t) := by
  refine ⟨fun hk => ?_, fun hi => ?_, fun ht => ?_⟩
  · split_ifs <;>
      simp [DBState.SetConnMaxLifetime, DBState.SetMaxIdleConns_maxOpen,
        DBState.SetMaxOpenConns_maxOpen d0 k hk]
  · have hp : i > 0 := hi
    simp only [hp, if_true]
    by_cases hk : k > 0
    · simp only [hk, if_true]
      have := DBState.SetMaxIdleConns_limit (d0.SetMaxOpenConns k) i hi
      rw [DBState.SetMaxOpenConns_maxOpen d0 k hk] at this
      split_ifs <;> simp_all [DBState.SetConnMaxLifetime, DBState.maxIdleConnsLocked]
    · simp only [hk, if_false]
      have := DBState.SetMaxIdleConns_limit d0 i hi
      rw [hO] at this
      have hk2 : ¬ (0 < k ∧ k < i) := fun h => hk h.1
      split_ifs <;> simp_all [DBState.SetConnMaxLifetime, DBState.maxIdleConnsLocked]
  · have hp : t > 0 := ht
    have : ¬ t < 0 := by omega
    simp [hp, DBState.SetConnMaxLifetime, this]

theorem SQLiteStore.sqlite_Connect_spec {E : Type} (lib : SqlLib E) (s : SQLiteStore)
    (w : World E) :
    (∃ err e, lib.openErr "sqlite3" s.filepath w.env = (some err, e)
        ∧ (s.Connect lib w).1 = some (Errorf_w "failed to open sqlite database: " err)
        ∧ (s.Connect lib w).2.1 = s)
    ∨ (∃ err d e0 e1, lib.pingErr d e0 = (some err, e1)
        ∧ (s.Connect lib w).1 = some (Errorf_w "failed to ping sqlite database: " err)
        ∧ (s.Connect lib w).2.1 = s)
    ∨ ((s.Connect lib w).1 = none
        ∧ (s.Connect lib w).2.1 = { s with db := some w.next }
        ∧ (0 < s.config.MaxOpenConns →
            ((s.Connect lib w).2.2.dbs w.next).maxOpen = s.config.MaxOpenConns)
        ∧ (0 < s.config.MaxIdleConns →
            ((s.Connect lib w).2.2.dbs w.next).maxIdleConnsLocked
              = if 0 < s.config.MaxOpenConns ∧ s.config.MaxOpenConns < s.config.MaxIdleConns
                then s.config.MaxOpenConns else s.config.MaxIdleConns)
        ∧ (0 < s.config.ConnMaxLifetime →
            ((s.Connect lib w).2.2.dbs w.next).maxLifetime = s.config.ConnMaxLifetime)) := by
  unfold SQLiteStore.Connect sqlOpen
  rcases hO : lib.openErr "sqlite3" s.filepath w.env with ⟨oe, e⟩
  cases oe with
  | some err =>
    left
    exact ⟨err, e, rfl, by simp, by simp⟩
  | none =>
    right
    simp only []
    generalize hw4 : (if s.config.ConnMaxLifetime > 0 then _ else _ : World E) = w4
    have hpool : w4.dbs w.next
        = (if s.config.ConnMaxLifetime > 0 then
            (if s.config.MaxIdleConns > 0 then
                (if s.config.MaxOpenConns > 0 then
                    (DBState.opened "sqlite3" s.filepath).SetMaxOpenConns s.config.MaxOpenConns
                  else DBState.opened "sqlite3" s.filepath).SetMaxIdleConns
                  s.config.MaxIdleConns
              else (if s.config.MaxOpenConns > 0 then
                    (DBState.opened "sqlite3" s.filepath).SetMaxOpenConns s.config.MaxOpenConns
                  else DBState.opened "sqlite3" s.filepath)).SetConnMaxLifetime
              s.config.ConnMaxLifetime
          else (if s.config.MaxIdleConns > 0 then
                (if s.config.MaxOpenConns > 0 then
                    (DBState.opened "sqlite3" s.filepath).SetMaxOpenConns s.config.MaxOpenConns
                  else DBState.opened "sqlite3" s.filepath).SetMaxIdleConns
                  s.config.MaxIdleConns
              else (if s.config.MaxOpenConns > 0 then
                    (DBState.opened "sqlite3" s.filepath).SetMaxOpenConns s.config.MaxOpenConns
                  else DBState.opened "sqlite3" s.filepath))) := by
      subst hw4
      split_ifs <;>
        simp [sqlSetMaxOpenConns, sqlSetMaxIdleConns, sqlSetConnMaxLifetime, World.setDB]
    rcases hP : lib.pingErr (w4.dbs w.next) w4.env with ⟨pe, e1⟩
    cases pe with
    | some err =>
      left
      refine ⟨err, _, _, _, hP, ?_, ?_⟩ <;> simp [sqlPing, hP]
    | none =>
      right
      simp only [sqlPing, hP, true_and]
      rw [hpool]
      exact pool_after_settings (DBState.opened "sqlite3" s.filepath) rfl _ _ _

theorem PostgresStore.postgres_Connect_spec {E : Type} (lib : SqlLib E) (s : PostgresStore)
    (w : World E) :
    (∃ err e, lib.openErr "postgres" s.dsn w.env = (some err, e)
        ∧ (s.Connect lib w).1 = some (Errorf_w "failed to open postgres database: " err)
        ∧ (s.Connect lib w).2.1 = s)
    ∨ (∃ err d e0 e1, lib.pingErr d e0 = (some err, e1)
        ∧ (s.Connect lib w).1 = some (Errorf_w "failed to ping postgres database: " err)
        ∧ (s.Connect lib w).2.1 = s)
    ∨ ((s.Connect lib w).1 = none
        ∧ (s.Connect lib w).2.1 = { s with db := some w.next }
        ∧ (0 < s.config.MaxOpenConns →
            ((s.Connect lib w).2.2.dbs w.next).maxOpen = s.config.MaxOpenConns)
        ∧ (0 < s.config.MaxIdleConns →
            ((s.Connect lib w).2.2.dbs w.next).maxIdleConnsLocked
              = if 0 < s.config.MaxOpenConns ∧ s.config.MaxOpenConns < s.config.MaxIdleConns
                then s.config.MaxOpenConns else s.config.MaxIdleConns)
        ∧ (0 < s.config.ConnMaxLifetime →
            ((s.Connect lib w).2.2.dbs w.next).maxLifetime = s.config.ConnMaxLifetime)) := by
  unfold PostgresStore.Connect sqlOpen
  rcases hO : lib.openErr "postgres" s.dsn w.env with ⟨oe, e⟩
  cases oe with
  | some err =>
    left
    exact ⟨err, e, rfl, by simp, by simp⟩
  | none =>
    right
    simp only []
    generalize hw4 : (if s.config.ConnMaxLifetime > 0 then _ else _ : World E) = w4
    have hpool : w4.dbs w.next
        = (if s.config.ConnMaxLifetime > 0 then
            (if s.config.MaxIdleConns > 0 then
                (if s.config.MaxOpenConns > 0 then
                    (DBState.opened "postgres" s.dsn).SetMaxOpenConns s.config.MaxOpenConns
                  else DBState.opened "postgres" s.dsn).SetMaxIdleConns
                  s.config.MaxIdleConns
              else (if s.config.MaxOpenConns > 0 then
                    (DBState.opened "postgres" s.dsn).SetMaxOpenConns s.config.MaxOpenConns
                  else DBState.opened "postgres" s.dsn)).SetConnMaxLifetime
              s.config.ConnMaxLifetime
          else (if s.config.MaxIdleConns > 0 then
                (if s.config.MaxOpenConns > 0 then
                    (DBState.opened "postgres" s.dsn).SetMaxOpenConns s.config.MaxOpenConns
                  else DBState.opened "postgres" s.dsn).SetMaxIdleConns
                  s.config.MaxIdleConns
              else (if s.config.MaxOpenConns > 0 then
                    (DBState.opened "postgres" s.dsn).SetMaxOpenConns s.config.MaxOpenConns
                  else DBState.opened "postgres" s.dsn))) := by
      subst hw4
      split_ifs <;>
        simp [sqlSetMaxOpenConns, sqlSetMaxIdleConns, sqlSetConnMaxLifetime, World.setDB]
    rcases hP : lib.pingErr (w4.dbs w.next) w4.env with ⟨pe, e1⟩
    cases pe with
    | some err =>
      left
      refine ⟨err, _, _, _, hP, ?_, ?_⟩ <;> simp [sqlPing, hP]
    | none =>
      right
      simp only [sqlPing, hP, true_and]
      rw [hpool]
      exact pool_after_settings (DBState.opened "postgres" s.dsn) rfl _ _ _

theorem sqlClose_closed {E : Type} (lib : SqlLib E) (a : Nat) (w : World E) :
    ((sqlClose lib a w).2.dbs a).closed = true := by
  unfold sqlClose
  by_cases hc : (w.dbs a).closed = true
  · simp [hc]
  · simp [hc, World.setDB]

theorem sqlClose_again {E : Type} (lib : SqlLib E) (a : Nat) (w : World E) :
    (sqlClose lib a (sqlClose lib a w).2).1 = none := by
  have hc := sqlClose_closed lib a w
  generalize (sqlClose lib a w).2 = w1 at hc
  simp [sqlClose, hc]

/-- C15: `DB()` is nil on a store just built by `New`, for the SQLite and the
Postgres store, and is not nil on the store left by a `Connect` that returned
no error. -/
theorem DB_nil_until_connected {E : Type} (lib : SqlLib E) (s : SQLiteStore)
    (p : PostgresStore) (w : World E) (filepath : String) (cfg : Postgres.Config)
    (config : Config) :
    (Sqlite.New filepath config).DB = none
    ∧ (Postgres.New cfg config).DB = none
    ∧ ((s.Connect lib w).1 = none → (s.Connect lib w).2.1.DB ≠ none)
    ∧ ((p.Connect lib w).1 = none → (p.Connect lib w).2.1.DB ≠ none) := by
  refine ⟨rfl, rfl, fun hs => ?_, fun hp => ?_⟩
  · rcases SQLiteStore.sqlite_Connect_spec lib s w with ⟨_, _, _, h1, _⟩ | ⟨_, _, _, _, _, h1, _⟩ |
      ⟨_, h2, _⟩
    · simp [hs] at h1
    · simp [hs] at h1
    · simp [h2, SQLiteStore.DB]
  · rcases PostgresStore.postgres_Connect_spec lib p w with ⟨_, _, _, h1, _⟩ | ⟨_, _, _, _, _, h1, _⟩ |
      ⟨_, h2, _⟩
    · simp [hp] at h1
    · simp [hp] at h1
    · simp [h2, PostgresStore.DB]

theorem DB_nil_until_connected_witness :
    (SQLiteStore.Connect okLib (Sqlite.New ":memory:" testConfig) World.init).1 = none
    ∧ (SQLiteStore.Connect okLib (Sqlite.New ":memory:" testConfig) World.init).2.1.DB ≠ none
    ∧ (PostgresStore.Connect okLib (Postgres.New testPostgresConfig testConfig)
        World.init).1 = none
    ∧ (PostgresStore.Connect okLib (Postgres.New testPostgresConfig testConfig)
        World.init).2.1.DB ≠ none :=
  ⟨rfl,
   (DB_nil_until_connected okLib (Sqlite.New ":memory:" testConfig)
      (Postgres.New testPostgresConfig testConfig) World.init ":memory:" testPostgresConfig
      testConfig).2.2.1 rfl,
   rfl,
   (DB_nil_until_connected okLib (Sqlite.New ":memory:" testConfig)
      (Postgres.New testPostgresConfig testConfig) World.init ":memory:" testPostgresConfig
      testConfig).2.2.2 rfl⟩

/-- C16: on a store left by a `Connect` that returned no error, for the SQLite
and the Postgres store, a second `Close` after a first `Close` that returned no
error returns no error; and `Close` on a store just built by `New` returns no
error and changes nothing. -/
theorem Close_twice_safe {E : Type} (lib : SqlLib E) (s : SQLiteStore)
    (p : PostgresStore) (w : World E) (filepath : String) (cfg : Postgres.Config)
    (config : Config) :
    ((s.Connect lib w).1 = none →
      ((s.Connect lib w).2.1.Close lib (s.Connect lib w).2.2).1 = none →
      ((s.Connect lib w).2.1.Close lib
        ((s.Connect lib w).2.1.Close lib (s.Connect lib w).2.2).2).1 = none)
    ∧ ((p.Connect lib w).1 = none →
      ((p.Connect lib w).2.1.Close lib (p.Connect lib w).2.2).1 = none →
      ((p.Connect lib w).2.1.Close lib
        ((p.Connect lib w).2.1.Close lib (p.Connect lib w).2.2).2).1 = none)
    ∧ (Sqlite.New filepath config).Close lib w = (none, w)
    ∧ (Postgres.New cfg config).Close lib w = (none, w) := by
  refine ⟨fun _ _ => ?_, fun _ _ => ?_, rfl, rfl⟩
  · generalize (s.Connect lib w).2.1 = s1
    generalize (s.Connect lib w).2.2 = w1
    unfold SQLiteStore.Close
    cases s1.db with
    | none => rfl
    | some a => exact sqlClose_again lib a w1
  · generalize (p.Connect lib w).2.1 = p1
    generalize (p.Connect lib w).2.2 = w1
    unfold PostgresStore.Close
    cases p1.db with
    | none => rfl
    | some a => exact sqlClose_again lib a w1

theorem Close_twice_safe_witness :
    (SQLiteStore.Connect okLib (Sqlite.New ":memory:" testConfig) World.init).1 = none
    ∧ ((SQLiteStore.Connect okLib (Sqlite.New ":memory:" testConfig) World.init).2.1.Close
        okLib
        (SQLiteStore.Connect okLib (Sqlite.New ":memory:" testConfig) World.init).2.2).1
        = none
    ∧ ((SQLiteStore.Connect okLib (Sqlite.New ":memory:" testConfig) World.init).2.1.Close
        okLib
        ((SQLiteStore.Connect okLib (Sqlite.New ":memory:" testConfig)
            World.init).2.1.Close okLib
          (SQLiteStore.Connect okLib (Sqlite.New ":memory:" testConfig)
            World.init).2.2).2).1 = none :=
  ⟨rfl, rfl,
   (Close_twice_safe okLib (Sqlite.New ":memory:" testConfig)
      (Postgres.New testPostgresConfig testConfig) World.init ":memory:" testPostgresConfig
      testConfig).1 rfl rfl⟩

/-- C17, as the code has it: on the store left by a `Connect` that returned
no error, for the SQLite and the Postgres store, `DB()` is a pool whose maximum
number of open connections is the `MaxOpenConns` of the store's `Config` when
that is positive, whose connection lifetime is the `ConnMaxLifetime` of the
`Config` when that is positive, and whose idle limit, when `MaxIdleConns` is
positive, is `MaxIdleConns`, unless `MaxOpenConns` is positive and smaller:
then the idle limit is `MaxOpenConns`. -/
theorem Connect_applies_pool_settings {E : Type} (lib : SqlLib E) (s : SQLiteStore)
    (p : PostgresStore) (w : World E) :
    ((s.Connect lib w).1 = none →
      ∃ a, (s.Connect lib w).2.1.DB = some a
        ∧ (0 < s.config.MaxOpenConns →
            ((s.Connect lib w).2.2.dbs a).MaxOpenConnections = s.config.MaxOpenConns)
        ∧ (0 < s.config.MaxIdleConns →
            ((s.Connect lib w).2.2.dbs a).maxIdleConnsLocked
              = if 0 < s.config.MaxOpenConns ∧ s.config.MaxOpenConns < s.config.MaxIdleConns
                then s.config.MaxOpenConns else s.config.MaxIdleConns)
        ∧ (0 < s.config.ConnMaxLifetime →
            ((s.Connect lib w).2.2.dbs a).maxLifetime = s.config.ConnMaxLifetime))
    ∧ ((p.Connect lib w).1 = none →
      ∃ a, (p.Connect lib w).2.1.DB = some a
        ∧ (0 < p.config.MaxOpenConns →
            ((p.Connect lib w).2.2.dbs a).MaxOpenConnections = p.config.MaxOpenConns)
        ∧ (0 < p.config.MaxIdleConns →
            ((p.Connect lib w).2.2.dbs a).maxIdleConnsLocked
              = if 0 < p.config.MaxOpenConns ∧ p.config.MaxOpenConns < p.config.MaxIdleConns
                then p.config.MaxOpenConns else p.config.MaxIdleConns)
        ∧ (0 < p.config.ConnMaxLifetime →
            ((p.Connect lib w).2.2.dbs a).maxLifetime = p.config.ConnMaxLifetime)) := by
  refine ⟨fun hs => ?_, fun hp => ?_⟩
  · rcases SQLiteStore.sqlite_Connect_spec lib s w with
      ⟨_, _, _, h1, _⟩ | ⟨_, _, _, _, _, h1, _⟩ | ⟨_, h2, hO, hI, hL⟩
    · simp [hs] at h1
    · simp [hs] at h1
    · exact ⟨w.next, by simp [h2, SQLiteStore.DB], hO, hI, hL⟩
  · rcases PostgresStore.postgres_Connect_spec lib p w with
      ⟨_, _, _, h1, _⟩ | ⟨_, _, _, _, _, h1, _⟩ | ⟨_, h2, hO, hI, hL⟩
    · simp [hp] at h1
    · simp [hp] at h1
    · exact ⟨w.next, by simp [h2, PostgresStore.DB], hO, hI, hL⟩

theorem Connect_applies_pool_settings_witness :
    ((SQLiteStore.Connect okLib (Sqlite.New ":memory:" testConfig) World.init).1 = none
      ∧ ∃ a,
        (SQLiteStore.Connect okLib (Sqlite.New ":memory:" testConfig) World.init).2.1.DB
          = some a
        ∧ ((SQLiteStore.Connect okLib (Sqlite.New ":memory:" testConfig)
            World.init).2.2.dbs a).MaxOpenConnections = 20
        ∧ ((SQLiteStore.Connect okLib (Sqlite.New ":memory:" testConfig)
            World.init).2.2.dbs a).maxIdleConnsLocked = 10
        ∧ ((SQLiteStore.Connect okLib (Sqlite.New ":memory:" testConfig)
            World.init).2.2.dbs a).maxLifetime = 1800000000000)
    ∧ ((PostgresStore.Connect okLib (Postgres.New testPostgresConfig testConfig)
          World.init).1 = none
      ∧ ∃ a,
        (PostgresStore.Connect okLib (Postgres.New testPostgresConfig testConfig)
          World.init).2.1.DB = some a
        ∧ ((PostgresStore.Connect okLib (Postgres.New testPostgresConfig testConfig)
            World.init).2.2.dbs a).MaxOpenConnections = 20
        ∧ ((PostgresStore.Connect okLib (Postgres.New testPostgresConfig testConfig)
            World.init).2.2.dbs a).maxIdleConnsLocked = 10
        ∧ ((PostgresStore.Connect okLib (Postgres.New testPostgresConfig testConfig)
            World.init).2.2.dbs a).maxLifetime = 1800000000000) :=
  ⟨⟨rfl,
    match (Connect_applies_pool_settings okLib (Sqlite.New ":memory:" testConfig)
      (Postgres.New testPostgresConfig testConfig) World.init).1 rfl with
    | ⟨a, ha, hO, hI, hL⟩ => ⟨a, ha, hO (by decide), hI (by decide), hL (by decide)⟩⟩,
   ⟨rfl,
    match (Connect_applies_pool_settings okLib (Sqlite.New ":memory:" testConfig)
      (Postgres.New testPostgresConfig testConfig) World.init).2 rfl with
    | ⟨a, ha, hO, hI, hL⟩ => ⟨a, ha, hO (by decide), hI (by decide), hL (by decide)⟩⟩⟩

/-- C17, as the claim has it, fails for the idle limit: with 5 open and 10
idle connections asked for, `Connect` returns no error on both stores, the
`MaxIdleConns` of the `Config` is positive, and the idle limit of the pool that
`DB()` returns is 5, not the 10 of the `Config`. -/
theorem Connect_idle_limit_capped :
    (SQLiteStore.Connect okLib (Sqlite.New ":memory:" cappedConfig) World.init).1 = none
    ∧ (SQLiteStore.Connect okLib (Sqlite.New ":memory:" cappedConfig) World.init).2.1.DB
        = some 0
    ∧ ((SQLiteStore.Connect okLib (Sqlite.New ":memory:" cappedConfig)
        World.init).2.2.dbs 0).maxIdleConnsLocked = 5
    ∧ (PostgresStore.Connect okLib (Postgres.New testPostgresConfig cappedConfig)
        World.init).1 = none
    ∧ (PostgresStore.Connect okLib (Postgres.New testPostgresConfig cappedConfig)
        World.init).2.1.DB = some 0
    ∧ ((PostgresStore.Connect okLib (Postgres.New testPostgresConfig cappedConfig)
        World.init).2.2.dbs 0).maxIdleConnsLocked = 5
    ∧ 0 < cappedConfig.MaxIdleConns
    ∧ cappedConfig.MaxIdleConns = 10
    ∧ ((SQLiteStore.Connect okLib (Sqlite.New ":memory:" cappedConfig)
        World.init).2.2.dbs 0).maxIdleConnsLocked ≠ cappedConfig.MaxIdleConns :=
  ⟨rfl, rfl, by decide, rfl, rfl, by decide, by decide, rfl, by decide⟩

end Store

namespace UserMgmt

/-! ## User management -/

/-- C13: the repository built by `NewRepository` has table name "users" when
the `TableName` of the `Config` is the empty string, and the `TableName` of the
`Config`, unchanged, when it is not empty. -/
theorem NewRepository_tableName {S : Type} (st : S) (config : Config) :
    (config.TableName = "" → (NewRepository st config).tableName = "users")
    ∧ (config.TableName ≠ "" → (NewRepository st config).tableName = config.TableName) := by
  constructor
  · intro h
    simp [NewRepository, h]
  · intro h
    simp [NewRepository, h]

theorem NewRepository_tableName_witness :
    (NewRepository () { TableName := "", PasswordMinLength := 0 }).tableName = "users"
    ∧ (NewRepository () { TableName := "accounts", PasswordMinLength := 0 }).tableName
        = "accounts" :=
  ⟨(NewRepository_tableName () { TableName := "", PasswordMinLength := 0 }).1 rfl,
   (NewRepository_tableName () { TableName := "accounts", PasswordMinLength := 0 }).2
     (by decide)⟩

/-- C14, what the code does: `NewService` keeps the `Config` it is given as it
is, so a service built from a `Config` whose `PasswordMinLength` is zero holds
zero, not the 8 that `DefaultConfig` holds and that the comment on the field
promises. -/
theorem NewService_keeps_zero_PasswordMinLength {R A P : Type} (repo : R)
    (authProvider : A) (passwordHasher : P) (tableName : String) :
    (NewService repo authProvider passwordHasher
        { TableName := tableName, PasswordMinLength := 0 }).config.PasswordMinLength = 0
    ∧ DefaultConfig.PasswordMinLength = 8
    ∧ ∀ config : Config,
        (NewService repo authProvider passwordHasher config).config = config :=
  ⟨rfl, rfl, fun _ => rfl⟩

end UserMgmt
